import Mathlib

/-
  Verification development for the shader keying-set / preset manager
  (src/ColorKeys.py).  The Python source is shallowly embedded below:

  * Blender's per-scene state (keying sets, shader presets, the active
    preset index, the frame cursor, the per-scene chooser strings) becomes
    the `Scene` structure; the global material data-base (`bpy.data.materials`)
    becomes a `List Material` threaded explicitly through every operation.
  * A material's node tree carries its animation fcurves, its resolvable
    node-socket base paths (each with the socket's current `default_value`),
    its other resolvable value paths, and the set of data paths on which a
    `keyframe_insert` call succeeds.  RNA `path_resolve` is modelled by
    association-list lookup; an unresolvable path, like an uncaught Python
    exception, makes the enclosing operation return `none`.
  * `keyframe_insert` side effects are logged in a journal of `KeyRecord`s
    (the committed value-records); mutation of a socket's `default_value`
    is a first-match in-place update, exactly as Python attribute assignment
    mutates the single object returned by the preceding lookup.
  * Python `str` operations (`startswith`, `endswith`, slicing) are modelled
    on the character sequence of the Lean `String`.
  * The `json` codec is the external serialization collaborator of the spec
    (it is not part of this repository's source); it is modelled as a blob
    that round-trips the record list exactly, which is the contract the
    source relies on.
-/

namespace ColorKeys

/-- Scalar value carried by an animatable parameter: the values actually
produced by value resolution in the source are numbers, booleans and small
numeric tuples. -/
inductive Value where
  | num (n : Int)
  | boolv (b : Bool)
  | vec (elts : List Int)
deriving DecidableEq

/-- Python `s.startswith(p)` on the character sequence. -/
def pyStartswith (s p : String) : Bool := p.data.isPrefixOf s.data

/-- Python `s.endswith(p)` on the character sequence. -/
def pyEndswith (s p : String) : Bool := p.data.isSuffixOf s.data

/-- Python slice `s[n:]`. -/
def pyDrop (s : String) (n : Nat) : String := String.mk (s.data.drop n)

/-- Python slice `s[:-n]` for `n > 0`. -/
def pyDropRight (s : String) (n : Nat) : String :=
  String.mk (s.data.take (s.data.length - n))

/-- Python `s.strip()`: whitespace removed from both ends. -/
def pyStrip (s : String) : String :=
  String.mk
    (((s.data.dropWhile Char.isWhitespace).reverse.dropWhile
        Char.isWhitespace).reverse)

/-- One fcurve of an action: a data path, an array index, and its keyframe
points (only emptiness of the point list is ever inspected by the source, so
the points are modelled by their count). -/
structure FCurve where
  data_path : String
  array_index : Int
  keyframe_points : Nat
deriving DecidableEq

/-- A material's node tree.  `anim_fcurves` is `some` exactly when both
`animation_data` and `animation_data.action` are present and then holds the
action's fcurves.  `sockets` maps each resolvable node-socket base path to
that socket's current `default_value`; `others` holds the remaining
resolvable value paths; `kf_ok` is the set of data paths on which
`keyframe_insert` succeeds on this node tree. -/
structure NodeTree where
  anim_fcurves : Option (List FCurve)
  sockets : List (String × Value)
  others : List (String × Value)
  kf_ok : List String
deriving DecidableEq

/-- A material of `bpy.data.materials`, identified by its unique name.
`props` holds the directly resolvable value paths of the material itself and
`kf_ok` the data paths on which `keyframe_insert` succeeds directly on the
material. -/
structure Material where
  name : String
  node_tree : Option NodeTree
  props : List (String × Value)
  kf_ok : List String
deriving DecidableEq

/-- First-match association lookup (RNA `path_resolve` resolves a path to
the single property it denotes). -/
def lookupA : List (String × Value) → String → Option Value
  | [], _ => none
  | (k, v) :: rest, key => if k = key then some v else lookupA rest key

/-- First-match association update: Python attribute assignment mutates the
single object that the preceding lookup returned. -/
def setA : List (String × Value) → String → Value → List (String × Value)
  | [], _, _ => []
  | (k, v) :: rest, key, val =>
      if k = key then (k, val) :: rest else (k, v) :: setA rest key val

/-- RNA `path_resolve` on a node tree, used on full value paths: a path
ending in the value-socket suffix resolves to the named socket's
`default_value`; any other path resolves among the tree's other value
paths. -/
def NodeTree.path_resolve (nt : NodeTree) (p : String) : Option Value :=
  if pyEndswith p (".default_value") then
    lookupA nt.sockets (pyDropRight p ((".default_value").length))
  else lookupA nt.others p

/-- RNA `path_resolve` on a material (direct paths). -/
def Material.path_resolve (m : Material) (p : String) : Option Value :=
  lookupA m.props p

/-- Where a committed value-record landed. -/
inductive KTarget where
  | mat (name : String)
  | tree (owner : String)
  | socket (owner : String) (base : String)
deriving DecidableEq

/-- A committed value-record ("keyframe"): target, data path, the explicit
index passed to `keyframe_insert` (`none` when the call omitted it and the
host default applies), and the frame stamped on it. -/
structure KeyRecord where
  target : KTarget
  data_path : String
  index : Option Int
  frame : Int
deriving DecidableEq

/-- `nt.keyframe_insert(data_path=dp, frame=frame)` — succeeds (producing the
committed record) iff the path accepts a value-record; an unsupported path
raises, modelled by `none`.  The source never passes an index here. -/
def NodeTree.keyframe_insert (nt : NodeTree) (owner : String) (dp : String)
    (frame : Int) : Option KeyRecord :=
  if dp ∈ nt.kf_ok then some (KeyRecord.mk (KTarget.tree owner) dp none frame)
  else none

/-- `m.keyframe_insert(...)` on a material, with an optional explicit
index. -/
def Material.keyframe_insert (m : Material) (dp : String) (idx : Option Int)
    (frame : Int) : Option KeyRecord :=
  if dp ∈ m.kf_ok then some (KeyRecord.mk (KTarget.mat m.name) dp idx frame)
  else none

/-- One entry of a keying set, as stored by `ks.paths.add(target_id=m,
data_path=dp, index=fcu.array_index)`.  The owner reference is its unique
material name. -/
structure PathEntry where
  id : String
  data_path : String
  array_index : Int
deriving DecidableEq

/-- The dedup key used by discovery: `(m.name, dp, fcu.array_index)`. -/
def entryKey (e : PathEntry) : String × String × Int :=
  (e.id, e.data_path, e.array_index)

/-- A named keying set (`scene.keying_sets` element). -/
structure KeyingSet where
  name : String
  paths : List PathEntry
deriving DecidableEq

/-- One serialized preset record `{'material': .., 'data_path': .., 'value': ..}`. -/
structure PRecord where
  material : String
  data_path : String
  value : Value
deriving DecidableEq

/-- The serialized text blob of a preset.  The `json` codec is the external
serialization collaborator; its contract (decode inverts encode) is modelled
by keeping the record list inside the blob. -/
structure JsonBlob where
  records : List PRecord
deriving DecidableEq

/-- `json.dumps` on the preset record list. -/
def json_dumps (l : List PRecord) : JsonBlob := JsonBlob.mk l

/-- `json.loads` on a preset blob. -/
def json_loads (b : JsonBlob) : List PRecord := b.records

/-- One stored preset (`ShaderPresetItem`). -/
structure PresetItem where
  name : String
  values_json : JsonBlob
deriving DecidableEq

/-- The per-scene state used by the source: the frame cursor, the keying-set
collection with its active marker, the keying-set chooser string
`ks_apply_shader_set`, and the preset store with its active index. -/
structure Scene where
  frame_current : Int
  keying_sets : List KeyingSet
  keying_sets_active : Option String
  ks_apply_shader_set : String
  shader_presets : List PresetItem
  shader_preset_index : Int
deriving DecidableEq

/-- An entry of `ctx.selected_ids`: a material, or some other id block
(filtered out by the `isinstance` check). -/
inductive SelId where
  | mat (m : Material)
  | otherId
deriving DecidableEq

/-- A selected object, exposing its material slots (`slot.material` may be
empty). -/
structure SceneObj where
  material_slots : List (Option Material)
deriving DecidableEq

/-- The operator context: the scene plus the current selection.
`selected_ids` is `none` when the attribute is absent
(`getattr(ctx, "selected_ids", None)`). -/
structure Ctx where
  scene : Scene
  selected_ids : Option (List SelId)
  selected_objects : List SceneObj
deriving DecidableEq

/-- `scene.keying_sets.get(name)`: first keying set with that name. -/
def keying_sets_get : List KeyingSet → String → Option KeyingSet
  | [], _ => none
  | k :: rest, n => if k.name = n then some k else keying_sets_get rest n

/-- In-place mutation of the first keying set with the given name. -/
def replaceFirstKS : List KeyingSet → String → KeyingSet → List KeyingSet
  | [], _, _ => []
  | k :: rest, n, k' =>
      if k.name = n then k' :: rest else k :: replaceFirstKS rest n k'

/-- `bpy.data.materials.get(name)`. -/
def materials_get : List Material → String → Option Material
  | [], _ => none
  | m :: rest, n => if m.name = n then some m else materials_get rest n

/-- In-place mutation of the first material with the given name (Python
attribute assignment mutates the object a `get` returned). -/
def replaceFirstMat : List Material → String → Material → List Material
  | [], _, _ => []
  | m :: rest, n, m' =>
      if m.name = n then m' :: rest else m :: replaceFirstMat rest n m'

/-- One step of the Python dict comprehension over materials keyed by name:
an unseen name is appended, a seen name keeps its position and is
overwritten. -/
def dictUpdate : List Material → Material → List Material
  | [], m => [m]
  | x :: rest, m =>
      if x.name = m.name then m :: rest else x :: dictUpdate rest m

/-- Order-preserving name-keyed dedup of the candidate material list,
`list({m.name: m for m in mats}.values())`. -/
def dedupByName (mats : List Material) : List Material :=
  mats.foldl dictUpdate []

/-- Candidate material resolution of discovery: materials among
`ctx.selected_ids` if any, else the materials bound to the slots of the
selected objects, then deduplicated by name. -/
def collectMats (ctx : Ctx) : List Material :=
  let mats :=
    match ctx.selected_ids with
    | some ids =>
        ids.foldl
          (fun acc i =>
            match i with
            | SelId.mat m => acc ++ [m]
            | SelId.otherId => acc) []
    | none => []
  let mats :=
    if mats.isEmpty then
      ctx.selected_objects.foldl
        (fun acc ob =>
          ob.material_slots.foldl
            (fun a s =>
              match s with
              | some m => a ++ [m]
              | none => a) acc) []
    else mats
  dedupByName mats

/-- The inner fcurve loop of discovery: skip pointless fcurves, compute the
node-tree-prefixed data path, and add a path entry exactly when the dedup
key `(m.name, dp, fcu.array_index)` is unseen. -/
def fcuFold (mname : String) :
    List (String × String × Int) × List PathEntry → List FCurve →
      List (String × String × Int) × List PathEntry
  | st, [] => st
  | (seen, out), fcu :: rest =>
      if fcu.keyframe_points = 0 then fcuFold mname (seen, out) rest
      else
        if (mname, ("node_tree.") ++ fcu.data_path, fcu.array_index) ∈ seen then
          fcuFold mname (seen, out) rest
        else
          fcuFold mname
            ((mname, ("node_tree.") ++ fcu.data_path, fcu.array_index) :: seen,
              out ++
                [PathEntry.mk mname (("node_tree.") ++ fcu.data_path)
                  fcu.array_index]) rest

/-- The outer material loop of discovery: materials without a node tree or
without an action are skipped. -/
def matFold :
    List (String × String × Int) × List PathEntry → List Material →
      List (String × String × Int) × List PathEntry
  | st, [] => st
  | st, m :: rest =>
      match m.node_tree with
      | none => matFold st rest
      | some nt =>
          match nt.anim_fcurves with
          | none => matFold st rest
          | some fcus => matFold (fcuFold m.name st fcus) rest

/-- The path entries discovery puts into the (cleared or fresh) keying set,
as a function of the deduplicated candidate list. -/
def buildPaths (mats : List Material) : List PathEntry :=
  (matFold ([], []) mats).2

/-- `extract_shader_keying_set(ctx, ks_name)`: clear-or-create the named
keying set, mark it active, rebuild its entries from the candidates, and
return the entry count. -/
def extract_shader_keying_set (ctx : Ctx) (ks_name : String) : Nat × Scene :=
  let scene := ctx.scene
  let newPaths := buildPaths (collectMats ctx)
  let ksets :=
    match keying_sets_get scene.keying_sets ks_name with
    | some ks => replaceFirstKS scene.keying_sets ks_name
        { ks with paths := newPaths }
    | none => scene.keying_sets ++ [KeyingSet.mk ks_name newPaths]
  (newPaths.length,
    { scene with keying_sets := ksets, keying_sets_active := some ks_name })

/-- The paths of the keying set of that name in a scene (empty when
absent); used to state properties of discovery. -/
def ksPathsOf (s : Scene) (n : String) : List PathEntry :=
  ((keying_sets_get s.keying_sets n).map KeyingSet.paths).getD []

/-- The body of the replay loop for one path entry: indirect entries strip
the container marker and insert on the owner's node tree (no explicit
index); direct entries insert on the owner, passing the stored index exactly
when it is positive.  A stale owner, a missing node tree on an indirect
entry, or an unsupported path raises, modelled by `none`. -/
def applyEntry (g : List Material) (frame : Int) (p : PathEntry) :
    Option KeyRecord :=
  if pyStartswith p.data_path ("node_tree.") then
    match materials_get g p.id with
    | none => none
    | some m =>
        match m.node_tree with
        | none => none
        | some nt =>
            nt.keyframe_insert p.id (pyDrop p.data_path (("node_tree.").length))
              frame
  else
    match materials_get g p.id with
    | none => none
    | some m =>
        if p.array_index > 0 then
          m.keyframe_insert p.data_path (some p.array_index) frame
        else m.keyframe_insert p.data_path none frame

/-- The replay loop: count the processed entries and collect the committed
records; a raising entry aborts the whole operation. -/
def applyLoop (g : List Material) (frame : Int) :
    Nat → List KeyRecord → List PathEntry → Option (Nat × List KeyRecord)
  | count, j, [] => some (count, j)
  | count, j, p :: rest =>
      match applyEntry g frame p with
      | none => none
      | some r => applyLoop g frame (count + 1) (j ++ [r]) rest

/-- `apply_shader_keying_set(ctx, ks_name)`: read the frame cursor once, look
the keying set up (absent set: zero, nothing committed), then replay every
entry. -/
def apply_shader_keying_set (g : List Material) (scene : Scene)
    (ks_name : String) : Option (Nat × List KeyRecord) :=
  let frame := scene.frame_current
  match keying_sets_get scene.keying_sets ks_name with
  | none => some (0, [])
  | some ks => applyLoop g frame 0 [] ks.paths

/-- Live-value resolution of one path entry, as performed by both
`save_current_preset` and the batch-collect operator: indirect entries
resolve through the owner's node tree on the stripped path, direct entries
resolve on the owner; any failure (stale owner, missing node tree,
unresolvable path) raises, modelled by `none`. -/
def path_resolve_entry (g : List Material) (e : PathEntry) : Option Value :=
  match materials_get g e.id with
  | none => none
  | some m =>
      if pyStartswith e.data_path ("node_tree.") then
        match m.node_tree with
        | none => none
        | some nt =>
            nt.path_resolve (pyDrop e.data_path (("node_tree.").length))
      else m.path_resolve e.data_path

/-- The capture loop of `save_current_preset` (also reused verbatim by the
batch-collect operator): one `(material-name, full-path, value)` record per
entry, in entry order. -/
def captureData (g : List Material) : List PathEntry → Option (List PRecord)
  | [] => some []
  | e :: rest =>
      match path_resolve_entry g e with
      | none => none
      | some v =>
          match captureData g rest with
          | none => none
          | some tail => some (PRecord.mk e.id e.data_path v :: tail)

/-- `save_current_preset(ctx, preset_name)`: validate that the chosen keying
set exists, then that the preset name is non-empty; on success capture every
entry, serialize, append the preset and move the active index to it.  The
result pair carries the created item or the failure message, exactly as the
Python pair `(item, err)`. -/
def save_current_preset (g : List Material) (scene : Scene)
    (preset_name : String) :
    Option ((Option PresetItem × Option String) × Scene) :=
  match keying_sets_get scene.keying_sets (pyStrip scene.ks_apply_shader_set) with
  | none => some ((none, some ("Select a valid Keying Set first")), scene)
  | some ks =>
      if preset_name = "" then
        some ((none, some ("Enter a preset name")), scene)
      else
        match captureData g ks.paths with
        | none => none
        | some data =>
            let item := PresetItem.mk preset_name (json_dumps data)
            let presets := scene.shader_presets ++ [item]
            some ((some item, none),
              { scene with
                  shader_presets := presets,
                  shader_preset_index := (presets.length : Int) - 1 })

/-- One record of the restore loop of `apply_shader_preset`: an unresolvable
owner name is skipped; a record that is both node-tree-prefixed and
value-socket-suffixed resolves the socket (raising on a missing node tree or
an unresolvable socket base), writes the captured value back and commits a
value-record on the socket; every other record is a best-effort
`keyframe_insert` directly on the owner, where a rejected commit is silently
skipped (`except Exception: pass`). -/
def restoreStep (frame : Int) (g : List Material) (j : List KeyRecord)
    (r : PRecord) : Option (List Material × List KeyRecord) :=
  match materials_get g r.material with
  | none => some (g, j)
  | some m =>
      if pyStartswith r.data_path ("node_tree.") &&
          pyEndswith r.data_path (".default_value") then
        match m.node_tree with
        | none => none
        | some nt =>
            let tail := pyDrop r.data_path (("node_tree.").length)
            let base := pyDropRight tail ((".default_value").length)
            match lookupA nt.sockets base with
            | none => none
            | some _ =>
                let nt' := { nt with sockets := setA nt.sockets base r.value }
                let g' := replaceFirstMat g m.name { m with node_tree := some nt' }
                some (g',
                  j ++ [KeyRecord.mk (KTarget.socket m.name base)
                          ("default_value") none frame])
      else
        match m.keyframe_insert r.data_path none frame with
        | some r' => some (g, j ++ [r'])
        | none => some (g, j)

/-- The restore loop over the deserialized records. -/
def restoreLoop (frame : Int) :
    List Material → List KeyRecord → List PRecord →
      Option (List Material × List KeyRecord)
  | g, j, [] => some (g, j)
  | g, j, r :: rest =>
      match restoreStep frame g j r with
      | none => none
      | some (g', j') => restoreLoop frame g' j' rest

/-- `apply_shader_preset(ctx, idx)`: out-of-range index fails with no side
effect; otherwise deserialize the selected blob and restore record by
record, returning the mutated material data-base and the committed
records. -/
def apply_shader_preset (g : List Material) (scene : Scene) (idx : Int) :
    Option (Bool × List Material × List KeyRecord) :=
  let frame := scene.frame_current
  if idx < 0 ∨ (scene.shader_presets.length : Int) ≤ idx then
    some (false, g, [])
  else
    match scene.shader_presets.get? idx.toNat with
    | none => none
    | some item =>
        match restoreLoop frame g [] (json_loads item.values_json) with
        | none => none
        | some (g', j) => some (true, g', j)

/-- Operator outcome (`{'FINISHED'}` / `{'CANCELLED'}`). -/
inductive OpResult where
  | FINISHED
  | CANCELLED
deriving DecidableEq

/-- `KS_OT_RemovePreset.execute`: an out-of-range active index cancels with
no change; otherwise remove the active preset and reclamp the active index
to `min(i, newSize - 1)`. -/
def KS_OT_RemovePreset_execute (scene : Scene) : OpResult × Scene :=
  let i := scene.shader_preset_index
  if i < 0 ∨ (scene.shader_presets.length : Int) ≤ i then
    (OpResult.CANCELLED, scene)
  else
    let presets := scene.shader_presets.eraseIdx i.toNat
    (OpResult.FINISHED,
      { scene with
          shader_presets := presets,
          shader_preset_index := min i ((presets.length : Int) - 1) })

/-- The batch-collect loop over every keying set: capture each set with the
same resolution as `save_current_preset` (raising on an unresolvable entry)
and append one preset per set, named after it. -/
def batchLoop (g : List Material) :
    Nat → List PresetItem → List KeyingSet → Option (Nat × List PresetItem)
  | cnt, acc, [] => some (cnt, acc)
  | cnt, acc, ks :: rest =>
      match captureData g ks.paths with
      | none => none
      | some data =>
          batchLoop g (cnt + 1)
            (acc ++ [PresetItem.mk (ks.name ++ "_preset") (json_dumps data)])
            rest

/-- `KS_OT_BatchCollect.execute`: one preset per keying set, then the active
index is unconditionally set to the store's last position. -/
def KS_OT_BatchCollect_execute (g : List Material) (scene : Scene) :
    Option (OpResult × Nat × Scene) :=
  match batchLoop g 0 scene.shader_presets scene.keying_sets with
  | none => none
  | some (cnt, presets) =>
      some (OpResult.FINISHED, cnt,
        { scene with
            shader_presets := presets,
            shader_preset_index := (presets.length : Int) - 1 })

/-- Dedup invariant carried by the discovery fold: every produced entry's
key is recorded in the seen set, and the produced keys are pairwise
distinct. -/
def DedupInv (st : List (String × String × Int) × List PathEntry) : Prop :=
  (∀ p ∈ st.2, entryKey p ∈ st.1) ∧ (st.2.map entryKey).Nodup

/-- The relation between a path entry and the preset record captured from
it: owner name and full path are copied verbatim, the value is the entry's
resolved live value. -/
def CaptureRel (g : List Material) (e : PathEntry) (r : PRecord) : Prop :=
  r.material = e.id ∧ r.data_path = e.data_path ∧
    path_resolve_entry g e = some r.value

/-- Per-record safety of the restore pass: a record taking the node-socket
special case (node-tree-prefixed and value-socket-suffixed) whose owner
resolves must have a bound node tree resolving the socket base path —
otherwise that record raises and aborts the whole restore.  Records whose
owner does not resolve, and records taking the guarded fallback, are always
safe. -/
def recordOK (g : List Material) (r : PRecord) : Bool :=
  if pyStartswith r.data_path ("node_tree.") &&
      pyEndswith r.data_path (".default_value") then
    match materials_get g r.material with
    | none => true
    | some m =>
        match m.node_tree with
        | none => false
        | some nt =>
            (lookupA nt.sockets
              (pyDropRight (pyDrop r.data_path (("node_tree.").length))
                ((".default_value").length))).isSome
  else true

/-- The part of a material the restore pass can never change: its name,
whether it has a node tree, and the socket base paths of that tree (restore
only overwrites socket values). -/
def socketShape (m : Material) : Option (List String) :=
  m.node_tree.map (fun nt => nt.sockets.map Prod.fst)

/-- Name-indexed view of the shapes of a material data-base. -/
def graphShapeAt (g : List Material) (n : String) :
    Option (Option (List String)) :=
  (materials_get g n).map socketShape

/-- The claim that replay commits each indirect entry's value-record at the
entry's stored array index (in addition to the stripped path and the
captured frame). -/
def IndirectStoredIndexClaim (g : List Material) (s : Scene) (n : String) :
    Prop :=
  ∀ N j, apply_shader_keying_set g s n = some (N, j) →
    ∀ p ∈ ksPathsOf s n, pyStartswith p.data_path ("node_tree.") = true →
      KeyRecord.mk (KTarget.tree p.id)
        (pyDrop p.data_path (("node_tree.").length)) (some p.array_index)
        s.frame_current ∈ j

/-! Theorems -/

theorem fcuFold_inv (mname : String) (fcus : List FCurve) :
    ∀ st, DedupInv st → DedupInv (fcuFold mname st fcus) := by
  induction fcus with
  | nil => intro st h; exact h
  | cons fcu rest ih =>
      rintro ⟨seen, out⟩ h
      by_cases h0 : fcu.keyframe_points = 0
      · rw [show fcuFold mname (seen, out) (fcu :: rest) =
            fcuFold mname (seen, out) rest by simp [fcuFold, h0]]
        exact ih _ h
      · by_cases hk :
            (mname, ("node_tree.") ++ fcu.data_path, fcu.array_index) ∈ seen
        · rw [show fcuFold mname (seen, out) (fcu :: rest) =
              fcuFold mname (seen, out) rest by simp [fcuFold, h0, hk]]
          exact ih _ h
        · rw [show fcuFold mname (seen, out) (fcu :: rest) =
              fcuFold mname
                ((mname, ("node_tree.") ++ fcu.data_path, fcu.array_index)
                    :: seen,
                  out ++
                    [PathEntry.mk mname (("node_tree.") ++ fcu.data_path)
                      fcu.array_index]) rest by simp [fcuFold, h0, hk]]
          apply ih
          constructor
          · intro p hp
            rcases List.mem_append.mp hp with hp | hp
            · exact List.mem_cons_of_mem _ (h.1 p hp)
            · rw [List.mem_singleton] at hp
              subst hp
              exact List.mem_cons_self _ _
          · rw [List.map_append, List.nodup_append]
            refine ⟨h.2, List.nodup_singleton _, ?_⟩
            intro a ha hb
            rw [List.map_singleton, List.mem_singleton] at hb
            subst hb
            rcases List.mem_map.mp ha with ⟨p, hp, hpk⟩
            have hpk' : entryKey p =
                (mname, ("node_tree.") ++ fcu.data_path, fcu.array_index) :=
              hpk
            exact hk (hpk' ▸ h.1 p hp)

theorem matFold_inv (mats : List Material) :
    ∀ st, DedupInv st → DedupInv (matFold st mats) := by
  induction mats with
  | nil => intro st h; exact h
  | cons m rest ih =>
      intro st h
      cases hnt : m.node_tree with
      | none =>
          rw [show matFold st (m :: rest) = matFold st rest by
            simp [matFold, hnt]]
          exact ih _ h
      | some nt =>
          cases hac : nt.anim_fcurves with
          | none =>
              rw [show matFold st (m :: rest) = matFold st rest by
                simp [matFold, hnt, hac]]
              exact ih _ h
          | some fcus =>
              rw [show matFold st (m :: rest) =
                  matFold (fcuFold m.name st fcus) rest by
                simp [matFold, hnt, hac]]
              exact ih _ (fcuFold_inv m.name fcus st h)

/-- Discovery never produces two entries sharing the
`(owner name, path, index)` key. -/
theorem buildPaths_nodup (mats : List Material) :
    ((buildPaths mats).map entryKey).Nodup :=
  (matFold_inv mats ([], []) ⟨by simp, by simp⟩).2

theorem keying_sets_get_name (l : List KeyingSet) (n : String)
    (k : KeyingSet) (h : keying_sets_get l n = some k) : k.name = n := by
  induction l with
  | nil => cases h
  | cons x rest ih =>
      by_cases hx : x.name = n
      · rw [keying_sets_get, if_pos hx] at h
        cases h
        exact hx
      · rw [keying_sets_get, if_neg hx] at h
        exact ih h

theorem get_replaceFirstKS (l : List KeyingSet) (n : String)
    (k k' : KeyingSet) (h : keying_sets_get l n = some k)
    (hk' : k'.name = n) :
    keying_sets_get (replaceFirstKS l n k') n = some k' := by
  induction l with
  | nil => cases h
  | cons x rest ih =>
      by_cases hx : x.name = n
      · rw [replaceFirstKS, if_pos hx, keying_sets_get, if_pos hk']
      · rw [keying_sets_get, if_neg hx] at h
        rw [replaceFirstKS, if_neg hx, keying_sets_get, if_neg hx]
        exact ih h

theorem get_append_of_none (l : List KeyingSet) (n : String) (k : KeyingSet)
    (h : keying_sets_get l n = none) (hk : k.name = n) :
    keying_sets_get (l ++ [k]) n = some k := by
  induction l with
  | nil => rw [List.nil_append, keying_sets_get, if_pos hk]
  | cons x rest ih =>
      by_cases hx : x.name = n
      · rw [keying_sets_get, if_pos hx] at h
        cases h
      · rw [keying_sets_get, if_neg hx] at h
        rw [List.cons_append, keying_sets_get, if_neg hx]
        exact ih h

/-- After `extract_shader_keying_set`, the named keying set exists and its
entries are exactly the rebuilt, deduplicated entry list. -/
theorem extract_get (ctx : Ctx) (name : String) :
    keying_sets_get (extract_shader_keying_set ctx name).2.keying_sets name =
      some (KeyingSet.mk name (buildPaths (collectMats ctx))) := by
  unfold extract_shader_keying_set
  dsimp only
  cases h : keying_sets_get ctx.scene.keying_sets name with
  | none => exact get_append_of_none _ _ _ h rfl
  | some ks =>
      dsimp only
      have hname := keying_sets_get_name _ _ _ h
      have hrepl :
          ({ ks with paths := buildPaths (collectMats ctx) } : KeyingSet) =
            KeyingSet.mk name (buildPaths (collectMats ctx)) := by
        cases ks
        simp only [KeyingSet.mk.injEq] at hname ⊢
        exact ⟨hname, trivial⟩
      rw [hrepl]
      exact get_replaceFirstKS _ _ _ _ h rfl

/-- C2: discovery is an idempotent deduplicating rebuild — running it a
second time with the same target name and the same candidates (on the scene
the first run produced) returns the same entry count and leaves the named
path-set with exactly the same entries, and the resulting path-set never
contains two entries sharing the `(owner name, path, index)` triple. -/
theorem C2_discovery_idempotent_dedup (ctx : Ctx) (name : String) :
    (extract_shader_keying_set
        { ctx with scene := (extract_shader_keying_set ctx name).2 } name).1 =
      (extract_shader_keying_set ctx name).1 ∧
    ksPathsOf
        (extract_shader_keying_set
          { ctx with scene := (extract_shader_keying_set ctx name).2 }
          name).2 name =
      ksPathsOf (extract_shader_keying_set ctx name).2 name ∧
    ((ksPathsOf (extract_shader_keying_set ctx name).2 name).map
        entryKey).Nodup := by
  have h1 := extract_get ctx name
  have h2 := extract_get
    { ctx with scene := (extract_shader_keying_set ctx name).2 } name
  have hmats :
      collectMats { ctx with scene := (extract_shader_keying_set ctx name).2 }
        = collectMats ctx := rfl
  refine ⟨rfl, ?_, ?_⟩
  · rw [ksPathsOf, ksPathsOf, h1, h2, hmats]
  · rw [ksPathsOf, h1]
    exact buildPaths_nodup _

theorem forall2_mem_left {α β : Type} {R : α → β → Prop} :
    ∀ {l : List α} {l' : List β}, List.Forall₂ R l l' →
      ∀ a ∈ l, ∃ b ∈ l', R a b := by
  intro l l' h
  induction h with
  | nil => intro a ha; cases ha
  | cons hR _ ih =>
      intro a ha
      rcases List.mem_cons.mp ha with rfl | ha
      · exact ⟨_, List.mem_cons_self _ _, hR⟩
      · rcases ih a ha with ⟨b, hb, hab⟩
        exact ⟨b, List.mem_cons_of_mem _ hb, hab⟩

theorem forall2_mem_right {α β : Type} {R : α → β → Prop} :
    ∀ {l : List α} {l' : List β}, List.Forall₂ R l l' →
      ∀ b ∈ l', ∃ a ∈ l, R a b := by
  intro l l' h
  induction h with
  | nil => intro b hb; cases hb
  | cons hR _ ih =>
      intro b hb
      rcases List.mem_cons.mp hb with rfl | hb
      · exact ⟨_, List.mem_cons_self _ _, hR⟩
      · rcases ih b hb with ⟨a, ha, hab⟩
        exact ⟨a, List.mem_cons_of_mem _ ha, hab⟩

/-- A successfully committed replay record is stamped with the frame the
loop was started with. -/
theorem applyEntry_frame {g : List Material} {frame : Int} {p : PathEntry}
    {r : KeyRecord} (h : applyEntry g frame p = some r) : r.frame = frame := by
  unfold applyEntry NodeTree.keyframe_insert Material.keyframe_insert at h
  repeat' split at h
  all_goals first
    | (cases h; rfl)
    | cases h

/-- On an indirect entry, a successful replay commit is the record on the
owner's node tree at the marker-stripped path, with no explicit index, at
the loop's frame. -/
theorem applyEntry_indirect {g : List Material} {frame : Int} {p : PathEntry}
    {r : KeyRecord} (hind : pyStartswith p.data_path ("node_tree.") = true)
    (h : applyEntry g frame p = some r) :
    r = KeyRecord.mk (KTarget.tree p.id)
      (pyDrop p.data_path (("node_tree.").length)) none frame := by
  unfold applyEntry NodeTree.keyframe_insert at h
  rw [if_pos hind] at h
  repeat' split at h
  all_goals first
    | (cases h; rfl)
    | cases h

/-- The replay loop over entries that all commit successfully: it adds one
record per entry, pairing each entry with its committed record in order. -/
theorem applyLoop_ok (g : List Material) (frame : Int) (l : List PathEntry) :
    ∀ count j, (∀ p ∈ l, (applyEntry g frame p).isSome) →
      ∃ j', applyLoop g frame count j l = some (count + l.length, j ++ j') ∧
        j'.length = l.length ∧
        List.Forall₂ (fun p r => applyEntry g frame p = some r) l j' := by
  induction l with
  | nil =>
      intro count j _
      exact ⟨[], by simp [applyLoop], by simp, List.Forall₂.nil⟩
  | cons p rest ih =>
      intro count j h
      rcases Option.isSome_iff_exists.mp (h p (List.mem_cons_self p rest))
        with ⟨r, hr⟩
      rcases ih (count + 1) (j ++ [r])
          (fun q hq => h q (List.mem_cons_of_mem _ hq))
        with ⟨j', hloop, hlen, hfa⟩
      refine ⟨r :: j', ?_, by simp [hlen], List.Forall₂.cons hr hfa⟩
      have harith : count + (p :: rest).length = count + 1 + rest.length := by
        simp only [List.length_cons]
        omega
      have happ : j ++ r :: j' = (j ++ [r]) ++ j' := by simp
      rw [harith, happ]
      simp only [applyLoop, hr]
      exact hloop

/-- C3: replay on an existing path-set whose N entries all commit returns N
and commits exactly N value-records, every one stamped with the single
time-cursor value read once at the start of the call (the model reads
`frame_current` exactly once, before the loop, so a moving cursor cannot be
observed mid-pass even across entries of different owners). -/
theorem C3_replay_counts_and_frames (g : List Material) (scene : Scene)
    (ks_name : String) (ks : KeyingSet)
    (hks : keying_sets_get scene.keying_sets ks_name = some ks)
    (hok : ∀ p ∈ ks.paths, (applyEntry g scene.frame_current p).isSome) :
    ∃ j, apply_shader_keying_set g scene ks_name =
        some (ks.paths.length, j) ∧
      j.length = ks.paths.length ∧
      ∀ r ∈ j, r.frame = scene.frame_current := by
  rcases applyLoop_ok g scene.frame_current ks.paths 0 [] hok
    with ⟨j', h1, h2, h3⟩
  refine ⟨j', ?_, h2, ?_⟩
  · unfold apply_shader_keying_set
    rw [hks]
    simpa using h1
  · intro r hr
    rcases forall2_mem_right h3 r hr with ⟨p, _, hpr⟩
    exact applyEntry_frame hpr

/-- Witness for C3 at a concrete one-entry path-set: replay returns 1 and
commits one record at frame 5. -/
theorem C3_witness :
    ∃ j, apply_shader_keying_set
        [Material.mk ("M") (some (NodeTree.mk none [] [] [("p")])) [] []]
        (Scene.mk 5
          [KeyingSet.mk ("k") [PathEntry.mk ("M") ("node_tree.p") 0]] none
          ("") [] 0) ("k") =
        some (1, j) ∧
      j.length = 1 ∧ ∀ r ∈ j, r.frame = 5 :=
  C3_replay_counts_and_frames
    [Material.mk ("M") (some (NodeTree.mk none [] [] [("p")])) [] []]
    (Scene.mk 5 [KeyingSet.mk ("k") [PathEntry.mk ("M") ("node_tree.p") 0]]
      none ("") [] 0) ("k")
    (KeyingSet.mk ("k") [PathEntry.mk ("M") ("node_tree.p") 0]) (by decide)
    (by decide)

/-- C4 counterexample: on a one-entry path-set whose indirect entry stores
array index 2, replay commits the record with no explicit index (the source
omits `index=` in the node-tree branch), so no record carrying the stored
index 2 is committed and the claim as stated fails. -/
theorem C4_counterexample :
    ¬ IndirectStoredIndexClaim
        [Material.mk ("M") (some (NodeTree.mk none [] [] [("p")])) [] []]
        (Scene.mk 5
          [KeyingSet.mk ("k") [PathEntry.mk ("M") ("node_tree.p") 2]] none
          ("") [] 0) ("k") := by
  intro h
  have hmem := h 1 [KeyRecord.mk (KTarget.tree ("M")) ("p") none 5]
    (by decide) (PathEntry.mk ("M") ("node_tree.p") 2) (by decide) (by decide)
  exact absurd hmem (by decide)

/-- C4 amended: for every indirect entry of a path-set whose entries all
commit, replay resolves the owner's bound node tree, strips the container
marker from the path, and commits the value-record on that node tree at the
stripped path at the captured time — but with no explicit index (the host
default), not the entry's stored index. -/
theorem C4_indirect_default_index (g : List Material) (scene : Scene)
    (ks_name : String) (ks : KeyingSet)
    (hks : keying_sets_get scene.keying_sets ks_name = some ks)
    (hok : ∀ p ∈ ks.paths, (applyEntry g scene.frame_current p).isSome)
    (p : PathEntry) (hp : p ∈ ks.paths)
    (hind : pyStartswith p.data_path ("node_tree.") = true) :
    ∃ j, apply_shader_keying_set g scene ks_name =
        some (ks.paths.length, j) ∧
      KeyRecord.mk (KTarget.tree p.id)
        (pyDrop p.data_path (("node_tree.").length)) none scene.frame_current
        ∈ j := by
  rcases applyLoop_ok g scene.frame_current ks.paths 0 [] hok
    with ⟨j', h1, _, h3⟩
  refine ⟨j', ?_, ?_⟩
  · unfold apply_shader_keying_set
    rw [hks]
    simpa using h1
  · rcases forall2_mem_left h3 p hp with ⟨r, hr, hpr⟩
    exact (applyEntry_indirect hind hpr) ▸ hr

/-- Witness for C4's amended theorem at the counterexample's input: the
default-index record is indeed the one committed. -/
theorem C4_witness :
    ∃ j, apply_shader_keying_set
        [Material.mk ("M") (some (NodeTree.mk none [] [] [("p")])) [] []]
        (Scene.mk 5
          [KeyingSet.mk ("k") [PathEntry.mk ("M") ("node_tree.p") 2]] none
          ("") [] 0) ("k") =
        some (1, j) ∧
      KeyRecord.mk (KTarget.tree ("M")) (pyDrop ("node_tree.p") 10) none 5
        ∈ j :=
  C4_indirect_default_index
    [Material.mk ("M") (some (NodeTree.mk none [] [] [("p")])) [] []]
    (Scene.mk 5 [KeyingSet.mk ("k") [PathEntry.mk ("M") ("node_tree.p") 2]]
      none ("") [] 0) ("k")
    (KeyingSet.mk ("k") [PathEntry.mk ("M") ("node_tree.p") 2]) (by decide)
    (by decide) (PathEntry.mk ("M") ("node_tree.p") 2) (by decide) (by decide)

/-- C7: for every index that is negative or at least the preset-store size,
`apply_shader_preset` returns `false` and has no side effects: the material
data-base is returned unchanged, no value-record is committed, and the scene
(preset store and active index included) is not touched by the operation at
all. -/
theorem C7_apply_preset_out_of_range (g : List Material) (scene : Scene)
    (idx : Int)
    (h : idx < 0 ∨ (scene.shader_presets.length : Int) ≤ idx) :
    apply_shader_preset g scene idx = some (false, g, []) := by
  unfold apply_shader_preset
  rw [if_pos h]

/-- Witness for C7 at the scenario of the spec: index equal to the store
size (here an empty store and index 0). -/
theorem C7_witness :
    apply_shader_preset [] (Scene.mk 0 [] none ("") [] 0) 0 =
      some (false, [], []) :=
  C7_apply_preset_out_of_range [] (Scene.mk 0 [] none ("") [] 0) 0
    (Or.inr (by decide))

/-- C5: `save_current_preset` validates in order — a missing chosen keying
set fails with the "no such set" message whatever the preset name is, and
with an existing set an empty preset name fails with the "missing name"
message; in both failure cases the returned scene is the input scene itself,
so the preset store and the active index are completely unchanged. -/
theorem C5_save_validation (g : List Material) (scene : Scene)
    (pname : String) :
    (keying_sets_get scene.keying_sets (pyStrip scene.ks_apply_shader_set) = none →
      save_current_preset g scene pname =
        some ((none, some ("Select a valid Keying Set first")), scene)) ∧
    (∀ ks,
      keying_sets_get scene.keying_sets (pyStrip scene.ks_apply_shader_set) =
        some ks →
      pname = "" →
      save_current_preset g scene pname =
        some ((none, some ("Enter a preset name")), scene)) := by
  constructor
  · intro h
    unfold save_current_preset
    rw [h]
  · intro ks h hp
    unfold save_current_preset
    rw [h]
    simp [hp]

/-- Witness for C5: both validation failures at concrete scenes — a missing
set with a non-empty preset name, and an existing set with an empty preset
name. -/
theorem C5_witness :
    save_current_preset [] (Scene.mk 0 [] none ("missing") [] 0) ("x") =
      some ((none, some ("Select a valid Keying Set first")),
        Scene.mk 0 [] none ("missing") [] 0) ∧
    save_current_preset []
        (Scene.mk 0 [KeyingSet.mk ("k") []] none ("k") [] 0) ("") =
      some ((none, some ("Enter a preset name")),
        Scene.mk 0 [KeyingSet.mk ("k") []] none ("k") [] 0) :=
  ⟨(C5_save_validation [] (Scene.mk 0 [] none ("missing") [] 0) ("x")).1
      (by decide),
    (C5_save_validation [] (Scene.mk 0 [KeyingSet.mk ("k") []] none ("k") [] 0)
        ("")).2 (KeyingSet.mk ("k") []) (by decide) rfl⟩

/-- C8: removing the preset at a valid active index `i` shrinks the store by
one and sets the active index to `min(i, newSize - 1)`; that index is `-1`
exactly when the store becomes empty, and otherwise lies in
`[0, newSize - 1]`. -/
theorem C8_remove_preset_reclamps (scene : Scene)
    (h0 : 0 ≤ scene.shader_preset_index)
    (h1 : scene.shader_preset_index < (scene.shader_presets.length : Int)) :
    (KS_OT_RemovePreset_execute scene).1 = OpResult.FINISHED ∧
    ((KS_OT_RemovePreset_execute scene).2.shader_presets.length : Int) + 1 =
      (scene.shader_presets.length : Int) ∧
    (KS_OT_RemovePreset_execute scene).2.shader_preset_index =
      min scene.shader_preset_index
        (((KS_OT_RemovePreset_execute scene).2.shader_presets.length : Int)
          - 1) ∧
    ((KS_OT_RemovePreset_execute scene).2.shader_preset_index = -1 ↔
      (KS_OT_RemovePreset_execute scene).2.shader_presets.length = 0) ∧
    ((KS_OT_RemovePreset_execute scene).2.shader_presets.length ≠ 0 →
      0 ≤ (KS_OT_RemovePreset_execute scene).2.shader_preset_index ∧
      (KS_OT_RemovePreset_execute scene).2.shader_preset_index <
        ((KS_OT_RemovePreset_execute scene).2.shader_presets.length : Int)) := by
  have hcond : ¬ (scene.shader_preset_index < 0 ∨
      (scene.shader_presets.length : Int) ≤ scene.shader_preset_index) := by
    omega
  have hlt : scene.shader_preset_index.toNat < scene.shader_presets.length := by
    omega
  have hlen :
      (scene.shader_presets.eraseIdx scene.shader_preset_index.toNat).length
        + 1 = scene.shader_presets.length :=
    List.length_eraseIdx_add_one hlt
  unfold KS_OT_RemovePreset_execute
  rw [if_neg hcond]
  dsimp only
  refine ⟨rfl, by exact_mod_cast hlen, rfl, ?_, ?_⟩
  · omega
  · intro hne
    omega

/-- Witness for C8 at a concrete two-element store with active index 1: the
store shrinks to one element and the index reclamps to 0. -/
theorem C8_witness :
    (KS_OT_RemovePreset_execute
        (Scene.mk 0 [] none ("")
          [PresetItem.mk ("a") (json_dumps []),
           PresetItem.mk ("b") (json_dumps [])] 1)).1 = OpResult.FINISHED ∧
    ((KS_OT_RemovePreset_execute
        (Scene.mk 0 [] none ("")
          [PresetItem.mk ("a") (json_dumps []),
           PresetItem.mk ("b") (json_dumps [])] 1)).2.shader_presets.length
        : Int) + 1 = 2 ∧
    (KS_OT_RemovePreset_execute
        (Scene.mk 0 [] none ("")
          [PresetItem.mk ("a") (json_dumps []),
           PresetItem.mk ("b") (json_dumps [])] 1)).2.shader_preset_index =
      min 1
        (((KS_OT_RemovePreset_execute
            (Scene.mk 0 [] none ("")
              [PresetItem.mk ("a") (json_dumps []),
               PresetItem.mk ("b") (json_dumps [])]
              1)).2.shader_presets.length : Int) - 1) ∧
    ((KS_OT_RemovePreset_execute
        (Scene.mk 0 [] none ("")
          [PresetItem.mk ("a") (json_dumps []),
           PresetItem.mk ("b") (json_dumps [])] 1)).2.shader_preset_index = -1
      ↔ (KS_OT_RemovePreset_execute
          (Scene.mk 0 [] none ("")
            [PresetItem.mk ("a") (json_dumps []),
             PresetItem.mk ("b") (json_dumps [])]
            1)).2.shader_presets.length = 0) ∧
    ((KS_OT_RemovePreset_execute
        (Scene.mk 0 [] none ("")
          [PresetItem.mk ("a") (json_dumps []),
           PresetItem.mk ("b") (json_dumps [])] 1)).2.shader_presets.length ≠ 0
      → 0 ≤ (KS_OT_RemovePreset_execute
          (Scene.mk 0 [] none ("")
            [PresetItem.mk ("a") (json_dumps []),
             PresetItem.mk ("b") (json_dumps [])] 1)).2.shader_preset_index ∧
        (KS_OT_RemovePreset_execute
          (Scene.mk 0 [] none ("")
            [PresetItem.mk ("a") (json_dumps []),
             PresetItem.mk ("b") (json_dumps [])] 1)).2.shader_preset_index <
          ((KS_OT_RemovePreset_execute
            (Scene.mk 0 [] none ("")
              [PresetItem.mk ("a") (json_dumps []),
               PresetItem.mk ("b") (json_dumps [])]
              1)).2.shader_presets.length : Int)) :=
  C8_remove_preset_reclamps
    (Scene.mk 0 [] none ("")
      [PresetItem.mk ("a") (json_dumps []),
       PresetItem.mk ("b") (json_dumps [])] 1)
    (by decide) (by decide)

theorem captureData_isSome (g : List Material) (l : List PathEntry)
    (h : ∀ e ∈ l, (path_resolve_entry g e).isSome) :
    (captureData g l).isSome := by
  induction l with
  | nil => rfl
  | cons e rest ih =>
      rcases Option.isSome_iff_exists.mp (h e (List.mem_cons_self e rest))
        with ⟨v, hv⟩
      have htail := ih (fun q hq => h q (List.mem_cons_of_mem _ hq))
      rcases Option.isSome_iff_exists.mp htail with ⟨tail, ht⟩
      simp [captureData, hv, ht]

/-- The batch loop over keying sets that all capture successfully: one
preset per set, named after it, holding that set's captured records, in
order. -/
theorem batchLoop_ok (g : List Material) (l : List KeyingSet) :
    ∀ cnt acc, (∀ ks ∈ l, (captureData g ks.paths).isSome) →
      batchLoop g cnt acc l = some (cnt + l.length,
        acc ++ l.map (fun ks =>
          PresetItem.mk (ks.name ++ "_preset")
            (json_dumps ((captureData g ks.paths).getD [])))) := by
  induction l with
  | nil => intro cnt acc _; simp [batchLoop]
  | cons ks rest ih =>
      intro cnt acc h
      rcases Option.isSome_iff_exists.mp (h ks (List.mem_cons_self ks rest))
        with ⟨data, hd⟩
      have hx : (captureData g ks.paths).getD [] = data := by rw [hd]; rfl
      simp only [batchLoop, hd]
      rw [ih (cnt + 1)
        (acc ++ [PresetItem.mk (ks.name ++ "_preset") (json_dumps data)])
        (fun k hk => h k (List.mem_cons_of_mem _ hk))]
      simp only [hx, List.map_cons, List.length_cons, List.append_assoc,
        List.singleton_append]
      congr 2
      omega

/-- C9: batch collect over a scene with K path-sets (empty ones included)
whose entries all resolve appends exactly K presets — one per path-set,
named after it with the fixed suffix, holding that set's captured
`(owner-name, full-path, value)` records — returns K, and sets the active
index to the store's new last position. -/
theorem C9_batch_collect (g : List Material) (scene : Scene)
    (hok : ∀ ks ∈ scene.keying_sets, ∀ e ∈ ks.paths,
      (path_resolve_entry g e).isSome) :
    KS_OT_BatchCollect_execute g scene =
      some (OpResult.FINISHED, scene.keying_sets.length,
        { scene with
            shader_presets := scene.shader_presets ++
              scene.keying_sets.map (fun ks =>
                PresetItem.mk (ks.name ++ "_preset")
                  (json_dumps ((captureData g ks.paths).getD []))),
            shader_preset_index :=
              ((scene.shader_presets ++
                scene.keying_sets.map (fun ks =>
                  PresetItem.mk (ks.name ++ "_preset")
                    (json_dumps ((captureData g ks.paths).getD
                      [])))).length : Int) - 1 }) := by
  have hcap : ∀ ks ∈ scene.keying_sets, (captureData g ks.paths).isSome :=
    fun ks hks => captureData_isSome g ks.paths (hok ks hks)
  unfold KS_OT_BatchCollect_execute
  rw [batchLoop_ok g scene.keying_sets 0 scene.shader_presets hcap]
  simp

/-- Witness for C9 at the spec's batch scenario shape: two path-sets (one
empty, one with a resolvable direct entry) produce exactly two presets named
after their sets, and the active index moves to the last position. -/
theorem C9_witness :
    KS_OT_BatchCollect_execute
        [Material.mk ("M")
          (some (NodeTree.mk none [(("s"), Value.num 7)] [] []))
          [(("c"), Value.num 3)] []]
        (Scene.mk 0
          [KeyingSet.mk ("a") [],
           KeyingSet.mk ("b") [PathEntry.mk ("M") ("c") 0]] none ("") [] 0) =
      some (OpResult.FINISHED, 2,
        Scene.mk 0
          [KeyingSet.mk ("a") [],
           KeyingSet.mk ("b") [PathEntry.mk ("M") ("c") 0]] none ("")
          [PresetItem.mk ("a_preset") (json_dumps []),
           PresetItem.mk ("b_preset")
             (json_dumps [PRecord.mk ("M") ("c") (Value.num 3)])] 1) := by
  have h := C9_batch_collect
    [Material.mk ("M") (some (NodeTree.mk none [(("s"), Value.num 7)] [] []))
      [(("c"), Value.num 3)] []]
    (Scene.mk 0
      [KeyingSet.mk ("a") [],
       KeyingSet.mk ("b") [PathEntry.mk ("M") ("c") 0]] none ("") [] 0)
    (by decide)
  rw [h]
  rfl

/-- C10: batch collect over a scene with zero keying sets appends nothing
and returns count 0, yet still unconditionally overwrites the active index
with `store size - 1`: the result scene keeps the preset store as it was and
its active index is `-1` exactly when the store is empty, and the last
pre-existing position otherwise. -/
theorem C10_batch_collect_no_sets (g : List Material) (scene : Scene)
    (h : scene.keying_sets = []) :
    KS_OT_BatchCollect_execute g scene =
      some (OpResult.FINISHED, 0,
        { scene with
            shader_preset_index := (scene.shader_presets.length : Int) - 1 }) ∧
    (scene.shader_presets = [] →
      KS_OT_BatchCollect_execute g scene =
        some (OpResult.FINISHED, 0,
          { scene with shader_preset_index := -1 })) := by
  have hrun : KS_OT_BatchCollect_execute g scene =
      some (OpResult.FINISHED, 0,
        { scene with
            shader_preset_index := (scene.shader_presets.length : Int) - 1 }) := by
    unfold KS_OT_BatchCollect_execute
    rw [h]
    rfl
  refine ⟨hrun, fun hp => ?_⟩
  rw [hrun, hp]
  rfl

/-- Witness for C10 at a concrete scene with no keying sets and one
pre-existing preset: nothing is appended and the index resets to 0, the last
pre-existing position. -/
theorem C10_witness :
    KS_OT_BatchCollect_execute []
        (Scene.mk 0 [] none ("") [PresetItem.mk ("a") (json_dumps [])] 7) =
      some (OpResult.FINISHED, 0,
        Scene.mk 0 [] none ("") [PresetItem.mk ("a") (json_dumps [])] 0) :=
  (C10_batch_collect_no_sets []
      (Scene.mk 0 [] none ("") [PresetItem.mk ("a") (json_dumps [])] 7)
      rfl).1

theorem lookupA_setA_id : ∀ (l : List (String × Value)) (k : String)
    (v : Value), lookupA l k = some v → setA l k v = l := by
  intro l
  induction l with
  | nil => intro k v h; cases h
  | cons p rest ih =>
      intro k v h
      obtain ⟨pk, pv⟩ := p
      by_cases hk : pk = k
      · rw [lookupA, if_pos hk] at h
        cases h
        rw [setA, if_pos hk]
      · rw [lookupA, if_neg hk] at h
        rw [setA, if_neg hk, ih k v h]

theorem materials_get_name : ∀ (g : List Material) (n : String)
    (m : Material), materials_get g n = some m → m.name = n := by
  intro g
  induction g with
  | nil => intro n m h; cases h
  | cons x rest ih =>
      intro n m h
      by_cases hx : x.name = n
      · rw [materials_get, if_pos hx] at h
        cases h
        exact hx
      · rw [materials_get, if_neg hx] at h
        exact ih n m h

theorem replaceFirstMat_id : ∀ (g : List Material) (n : String)
    (m : Material), materials_get g n = some m →
      replaceFirstMat g n m = g := by
  intro g
  induction g with
  | nil => intro n m h; cases h
  | cons x rest ih =>
      intro n m h
      by_cases hx : x.name = n
      · rw [materials_get, if_pos hx] at h
        cases h
        rw [replaceFirstMat, if_pos hx]
      · rw [materials_get, if_neg hx] at h
        rw [replaceFirstMat, if_neg hx, ih n m h]

theorem get?_append_length {α : Type} (l : List α) (a : α) :
    (l ++ [a]).get? l.length = some a := by
  induction l with
  | nil => rfl
  | cons x rest ih =>
      rw [List.cons_append, List.length_cons, List.get?_cons_succ]
      exact ih

/-- The capture loop relates entries and records pointwise. -/
theorem captureData_forall2 (g : List Material) :
    ∀ (l : List PathEntry) (data : List PRecord),
      captureData g l = some data → List.Forall₂ (CaptureRel g) l data := by
  intro l
  induction l with
  | nil =>
      intro data h
      cases h
      exact List.Forall₂.nil
  | cons e rest ih =>
      intro data h
      cases hv : path_resolve_entry g e with
      | none =>
          simp only [captureData, hv] at h
          exact Option.noConfusion h
      | some v =>
          cases ht : captureData g rest with
          | none =>
              simp only [captureData, hv, ht] at h
              exact Option.noConfusion h
          | some tail =>
              simp only [captureData, hv, ht] at h
              cases h
              exact List.Forall₂.cons ⟨rfl, rfl, hv⟩ (ih tail ht)

/-- Restoring a record that was just captured from the same state leaves the
material data-base unchanged: the node-socket case writes the socket's own
current value back (a first-match update with the looked-up value is the
identity), and the fallback case only commits or skips a value-record.  The
coherence hypothesis states that the value-socket suffix test agrees on the
full path and on its marker-stripped tail, which holds for every genuine
two-level path (only the degenerate full path whose tail is the bare suffix
violates it). -/
theorem restoreStep_of_capture (g : List Material) (frame : Int)
    (e : PathEntry) (r : PRecord) (hrel : CaptureRel g e r)
    (hcoh : pyStartswith e.data_path ("node_tree.") = true →
      pyEndswith (pyDrop e.data_path (("node_tree.").length))
          (".default_value") =
        pyEndswith e.data_path (".default_value"))
    (j : List KeyRecord) :
    ∃ j2, restoreStep frame g j r = some (g, j ++ j2) := by
  obtain ⟨hmat, hdp, hval⟩ := hrel
  unfold path_resolve_entry at hval
  cases hm : materials_get g e.id with
  | none => rw [hm] at hval; cases hval
  | some m =>
      rw [hm] at hval
      dsimp only at hval
      unfold restoreStep
      rw [hmat, hdp, hm]
      dsimp only
      by_cases hc : (pyStartswith e.data_path ("node_tree.") &&
          pyEndswith e.data_path (".default_value")) = true
      · have hs : pyStartswith e.data_path ("node_tree.") = true := by
          cases hps : pyStartswith e.data_path ("node_tree.")
          · simp [hps] at hc
          · rfl
        have hfull : pyEndswith e.data_path (".default_value") = true := by
          cases hpe : pyEndswith e.data_path (".default_value")
          · simp [hpe] at hc
          · rfl
        have hsuf : pyEndswith (pyDrop e.data_path (("node_tree.").length))
            (".default_value") = true := by
          rw [hcoh hs]
          exact hfull
        rw [if_pos hs] at hval
        cases hnt : m.node_tree with
        | none => rw [hnt] at hval; cases hval
        | some nt =>
            rw [hnt] at hval
            dsimp only at hval
            unfold NodeTree.path_resolve at hval
            rw [if_pos hsuf] at hval
            rw [if_pos hc]
            dsimp only
            rw [hval]
            dsimp only
            refine ⟨[KeyRecord.mk
              (KTarget.socket m.name
                (pyDropRight (pyDrop e.data_path (("node_tree.").length))
                  ((".default_value").length)))
              ("default_value") none frame], ?_⟩
            rw [lookupA_setA_id _ _ _ hval]
            have hnt' :
                (NodeTree.mk nt.anim_fcurves nt.sockets nt.others nt.kf_ok)
                  = nt := rfl
            rw [hnt', ← hnt]
            have hmm : (Material.mk m.name m.node_tree m.props m.kf_ok) = m :=
              rfl
            rw [hmm]
            have hm' : materials_get g m.name = some m := by
              rw [materials_get_name g e.id m hm]
              exact hm
            rw [replaceFirstMat_id _ _ _ hm']
      · rw [if_neg hc]
        cases hki : m.keyframe_insert e.data_path none frame with
        | some r' => exact ⟨[r'], rfl⟩
        | none => exact ⟨[], by simp⟩

/-- The restore loop over records captured from the unmodified state
succeeds and returns the material data-base unchanged. -/
theorem restoreLoop_of_capture (g : List Material) (frame : Int)
    {l : List PathEntry} {data : List PRecord}
    (hfa : List.Forall₂ (CaptureRel g) l data)
    (hcoh : ∀ e ∈ l, pyStartswith e.data_path ("node_tree.") = true →
      pyEndswith (pyDrop e.data_path (("node_tree.").length))
          (".default_value") =
        pyEndswith e.data_path (".default_value")) :
    ∀ j, ∃ j', restoreLoop frame g j data = some (g, j') := by
  induction hfa with
  | nil => intro j; exact ⟨j, rfl⟩
  | @cons e r l' data' hrel htail ih =>
      intro j
      rcases restoreStep_of_capture g frame e r hrel
          (hcoh e (List.mem_cons_self e l')) j with ⟨j2, hstep⟩
      rcases ih (fun q hq => hcoh q (List.mem_cons_of_mem _ hq)) (j ++ j2)
        with ⟨j', hloop⟩
      refine ⟨j', ?_⟩
      simp only [restoreLoop, hstep]
      exact hloop

/-- C1: capture-restore round-trip.  For a chosen path-set whose entries all
resolve to live values (and whose paths are genuine two-level paths, so the
value-socket suffix test agrees on the full path and its stripped tail),
saving a preset and immediately applying it at the active index the save
selected (time cursor unchanged, scene otherwise unmodified) succeeds and
returns the material data-base exactly as it was: the preset's records hold
precisely the captured live values, and after the restore every captured
path still resolves to the same value — for both record kinds (the
node-socket `.default_value` special case writes the identical value back,
and the direct fallback case never writes a value at all). -/
theorem C1_capture_restore_roundtrip (g : List Material) (scene : Scene)
    (preset_name : String) (ks : KeyingSet)
    (hks : keying_sets_get scene.keying_sets
      (pyStrip scene.ks_apply_shader_set) = some ks)
    (hname : preset_name ≠ "")
    (hres : ∀ e ∈ ks.paths, (path_resolve_entry g e).isSome)
    (hcoh : ∀ e ∈ ks.paths, pyStartswith e.data_path ("node_tree.") = true →
      pyEndswith (pyDrop e.data_path (("node_tree.").length))
          (".default_value") =
        pyEndswith e.data_path (".default_value")) :
    ∃ item scene' j,
      save_current_preset g scene preset_name =
        some ((some item, none), scene') ∧
      scene'.frame_current = scene.frame_current ∧
      List.Forall₂ (fun e r => path_resolve_entry g e = some r.value)
        ks.paths (json_loads item.values_json) ∧
      apply_shader_preset g scene' scene'.shader_preset_index =
        some (true, g, j) := by
  rcases Option.isSome_iff_exists.mp (captureData_isSome g ks.paths hres)
    with ⟨data, hdata⟩
  have hfa := captureData_forall2 g ks.paths data hdata
  rcases restoreLoop_of_capture g scene.frame_current hfa hcoh []
    with ⟨j, hloop⟩
  refine ⟨PresetItem.mk preset_name (json_dumps data),
    { scene with
        shader_presets := scene.shader_presets ++
          [PresetItem.mk preset_name (json_dumps data)],
        shader_preset_index :=
          ((scene.shader_presets ++
            [PresetItem.mk preset_name (json_dumps data)]).length : Int) - 1 },
    j, ?_, rfl, hfa.imp (fun _ _ h => h.2.2), ?_⟩
  · unfold save_current_preset
    rw [hks]
    dsimp only
    rw [if_neg hname, hdata]
  · have hlen :
        (scene.shader_presets ++
          [PresetItem.mk preset_name (json_dumps data)]).length =
        scene.shader_presets.length + 1 := by simp
    unfold apply_shader_preset
    dsimp only
    rw [if_neg (by omega)]
    have htn :
        (((scene.shader_presets ++
            [PresetItem.mk preset_name (json_dumps data)]).length : Int)
          - 1).toNat = scene.shader_presets.length := by omega
    rw [htn, get?_append_length]
    dsimp only [json_loads, json_dumps]
    rw [hloop]

/-- Witness for C1 at a concrete path-set exercising all three record
shapes: a node-socket `.default_value` path, another node-tree path, and a
direct material path. -/
theorem C1_witness :
    ∃ item scene' j,
      save_current_preset
        [Material.mk ("M")
          (some (NodeTree.mk none [(("s"), Value.num 7)]
            [(("o"), Value.num 1)] []))
          [(("c"), Value.num 3)] [("c")]]
        (Scene.mk 5
          [KeyingSet.mk ("k")
            [PathEntry.mk ("M") ("node_tree.s.default_value") 0,
             PathEntry.mk ("M") ("node_tree.o") 0,
             PathEntry.mk ("M") ("c") 0]] none ("k") [] 0) ("x") =
        some ((some item, none), scene') ∧
      scene'.frame_current = 5 ∧
      List.Forall₂ (fun e r => path_resolve_entry
          [Material.mk ("M")
            (some (NodeTree.mk none [(("s"), Value.num 7)]
              [(("o"), Value.num 1)] []))
            [(("c"), Value.num 3)] [("c")]] e = some r.value)
        [PathEntry.mk ("M") ("node_tree.s.default_value") 0,
         PathEntry.mk ("M") ("node_tree.o") 0,
         PathEntry.mk ("M") ("c") 0] (json_loads item.values_json) ∧
      apply_shader_preset
        [Material.mk ("M")
          (some (NodeTree.mk none [(("s"), Value.num 7)]
            [(("o"), Value.num 1)] []))
          [(("c"), Value.num 3)] [("c")]]
        scene' scene'.shader_preset_index =
        some (true,
          [Material.mk ("M")
            (some (NodeTree.mk none [(("s"), Value.num 7)]
              [(("o"), Value.num 1)] []))
            [(("c"), Value.num 3)] [("c")]], j) :=
  C1_capture_restore_roundtrip
    [Material.mk ("M")
      (some (NodeTree.mk none [(("s"), Value.num 7)] [(("o"), Value.num 1)]
        []))
      [(("c"), Value.num 3)] [("c")]]
    (Scene.mk 5
      [KeyingSet.mk ("k")
        [PathEntry.mk ("M") ("node_tree.s.default_value") 0,
         PathEntry.mk ("M") ("node_tree.o") 0,
         PathEntry.mk ("M") ("c") 0]] none ("k") [] 0) ("x")
    (KeyingSet.mk ("k")
      [PathEntry.mk ("M") ("node_tree.s.default_value") 0,
       PathEntry.mk ("M") ("node_tree.o") 0,
       PathEntry.mk ("M") ("c") 0])
    (by decide) (by decide) (by decide) (by decide)

/-- C6 counterexample: a preset whose single record takes the node-socket
`.default_value` special case but whose socket base path does not resolve on
the owner's node tree makes the whole restore raise (`none`), instead of
returning `true`, even though the index 0 is in range (store size 1) and the
blob deserializes — the special case has no best-effort guard in the
source (only the fallback branch is wrapped in try/except). -/
theorem C6_counterexample :
    ((Scene.mk 0 [] none ("")
        [PresetItem.mk ("p")
          (json_dumps
            [PRecord.mk ("M") ("node_tree.x.default_value") (Value.num 1)])]
        0).shader_presets.length : Int) = 1 ∧
    apply_shader_preset
        [Material.mk ("M") (some (NodeTree.mk none [] [] [])) [] []]
        (Scene.mk 0 [] none ("")
          [PresetItem.mk ("p")
            (json_dumps
              [PRecord.mk ("M") ("node_tree.x.default_value") (Value.num 1)])]
          0) 0 = none :=
  ⟨by decide, by decide⟩

theorem setA_keys : ∀ (l : List (String × Value)) (k : String) (v : Value),
    (setA l k v).map Prod.fst = l.map Prod.fst := by
  intro l
  induction l with
  | nil => intro k v; rfl
  | cons p rest ih =>
      intro k v
      obtain ⟨pk, pv⟩ := p
      by_cases hk : pk = k
      · rw [setA, if_pos hk]
        simp
      · rw [setA, if_neg hk]
        simp only [List.map_cons]
        rw [ih]

theorem lookupA_isSome_keys :
    ∀ (l l' : List (String × Value)),
      l.map Prod.fst = l'.map Prod.fst →
      ∀ k, (lookupA l k).isSome = (lookupA l' k).isSome := by
  intro l
  induction l with
  | nil =>
      intro l' h k
      cases l' with
      | nil => rfl
      | cons q rest' => exact absurd h (by simp)
  | cons p rest ih =>
      intro l' h k
      cases l' with
      | nil => exact absurd h (by simp)
      | cons q rest' =>
          obtain ⟨pk, pv⟩ := p
          obtain ⟨qk, qv⟩ := q
          simp only [List.map_cons, List.cons.injEq] at h
          by_cases hk : pk = k
          · rw [lookupA, if_pos hk, lookupA, if_pos (h.1 ▸ hk)]
            rfl
          · rw [lookupA, if_neg hk, lookupA,
              if_neg (fun hq => hk (h.1.trans hq))]
            exact ih rest' h.2 k

/-- In-place mutation of the first material of a given name with a material
of the same shape (same name, same node-tree presence, same socket keys)
preserves the shape of the whole data-base. -/
theorem graphShapeAt_replace :
    ∀ (g : List Material) (nm : String) (m' : Material), m'.name = nm →
      (∀ m0, materials_get g nm = some m0 →
        socketShape m' = socketShape m0) →
      ∀ n, graphShapeAt (replaceFirstMat g nm m') n = graphShapeAt g n := by
  intro g
  induction g with
  | nil => intro nm m' _ _ n; rfl
  | cons x rest ih =>
      intro nm m' hname hsh n
      by_cases hx : x.name = nm
      · have hshx : socketShape m' = socketShape x :=
          hsh x (by rw [materials_get, if_pos hx])
        rw [replaceFirstMat, if_pos hx]
        unfold graphShapeAt materials_get
        have hmn : m'.name = x.name := by rw [hname, hx]
        rw [hmn]
        by_cases hn : x.name = n
        · rw [if_pos hn, if_pos hn]
          simp only [Option.map_some']
          rw [hshx]
        · rw [if_neg hn, if_neg hn]
      · rw [replaceFirstMat, if_neg hx]
        have hsh' : ∀ m0, materials_get rest nm = some m0 →
            socketShape m' = socketShape m0 := by
          intro m0 h0
          exact hsh m0 (by rw [materials_get, if_neg hx]; exact h0)
        unfold graphShapeAt materials_get
        by_cases hn : x.name = n
        · rw [if_pos hn, if_pos hn]
        · rw [if_neg hn, if_neg hn]
          exact ih nm m' hname hsh' n

/-- Record safety only depends on the shape of the data-base, which the
restore pass preserves. -/
theorem recordOK_shape (g g' : List Material) (r : PRecord)
    (hsh : ∀ n, graphShapeAt g' n = graphShapeAt g n) :
    recordOK g' r = recordOK g r := by
  unfold recordOK
  by_cases hc : (pyStartswith r.data_path ("node_tree.") &&
      pyEndswith r.data_path (".default_value")) = true
  · rw [if_pos hc, if_pos hc]
    have h := hsh r.material
    unfold graphShapeAt at h
    cases hg' : materials_get g' r.material with
    | none =>
        cases hg : materials_get g r.material with
        | none => rfl
        | some m =>
            rw [hg', hg] at h
            exact absurd h (by simp)
    | some m' =>
        cases hg : materials_get g r.material with
        | none =>
            rw [hg', hg] at h
            exact absurd h (by simp)
        | some m =>
            rw [hg', hg] at h
            simp only [Option.map_some', Option.some.injEq] at h
            unfold socketShape at h
            dsimp only
            cases hnt' : m'.node_tree with
            | none =>
                cases hnt : m.node_tree with
                | none => rfl
                | some nt =>
                    rw [hnt', hnt] at h
                    exact absurd h (by simp)
            | some nt' =>
                cases hnt : m.node_tree with
                | none =>
                    rw [hnt', hnt] at h
                    exact absurd h (by simp)
                | some nt =>
                    rw [hnt', hnt] at h
                    simp only [Option.map_some', Option.some.injEq] at h
                    dsimp only
                    exact lookupA_isSome_keys _ _ h _
  · rw [if_neg hc, if_neg hc]

/-- A safe record never aborts the restore step, and the step preserves the
data-base shape. -/
theorem restoreStep_ok (frame : Int) (g : List Material) (j : List KeyRecord)
    (r : PRecord) (h : recordOK g r = true) :
    ∃ g' j', restoreStep frame g j r = some (g', j') ∧
      ∀ n, graphShapeAt g' n = graphShapeAt g n := by
  unfold restoreStep
  cases hm : materials_get g r.material with
  | none => exact ⟨g, j, rfl, fun n => rfl⟩
  | some m =>
      dsimp only
      by_cases hc : (pyStartswith r.data_path ("node_tree.") &&
          pyEndswith r.data_path (".default_value")) = true
      · unfold recordOK at h
        rw [if_pos hc, hm] at h
        dsimp only at h
        cases hnt : m.node_tree with
        | none =>
            rw [hnt] at h
            dsimp only at h
            exact absurd h (by simp)
        | some nt =>
            rw [hnt] at h
            dsimp only at h
            rcases Option.isSome_iff_exists.mp h with ⟨w, hw⟩
            rw [if_pos hc]
            dsimp only
            rw [hw]
            dsimp only
            refine ⟨_, _, rfl, ?_⟩
            refine graphShapeAt_replace g m.name _ rfl ?_
            intro m0 h0
            have hm' : materials_get g m.name = some m := by
              rw [materials_get_name g r.material m hm]
              exact hm
            rw [hm'] at h0
            cases h0
            unfold socketShape
            rw [hnt]
            simp only [Option.map_some', Option.some.injEq]
            exact setA_keys _ _ _
      · rw [if_neg hc]
        cases hki : m.keyframe_insert r.data_path none frame with
        | some r' => exact ⟨g, j ++ [r'], rfl, fun n => rfl⟩
        | none => exact ⟨g, j, rfl, fun n => rfl⟩

/-- The restore loop never aborts when every record is safe on the evolving
data-base (safety is transported along the shape-preserving steps). -/
theorem restoreLoop_allOK (frame : Int) :
    ∀ (rs : List PRecord) (g : List Material) (j : List KeyRecord),
      (∀ r ∈ rs, recordOK g r = true) →
      ∃ g' j', restoreLoop frame g j rs = some (g', j') := by
  intro rs
  induction rs with
  | nil => intro g j _; exact ⟨g, j, rfl⟩
  | cons r rest ih =>
      intro g j h
      rcases restoreStep_ok frame g j r (h r (List.mem_cons_self r rest))
        with ⟨g1, j1, hstep, hshape⟩
      have hrest : ∀ q ∈ rest, recordOK g1 q = true := by
        intro q hq
        rw [recordOK_shape g g1 q hshape]
        exact h q (List.mem_cons_of_mem _ hq)
      rcases ih g1 j1 hrest with ⟨g', j', hloop⟩
      refine ⟨g', j', ?_⟩
      simp only [restoreLoop, hstep]
      exact hloop

/-- C6 amended: preset restore is best-effort per record only outside the
node-socket special case.  For every in-range index whose records are all
safe — records whose owner name does not resolve (skipped), fallback records
whether or not the owner accepts the value-record (committed or silently
skipped), and `.default_value` special-case records whose owner's node tree
resolves the socket base — the restore processes every record and returns
`true`.  An unsafe special-case record instead aborts the whole restore
(see the counterexample). -/
theorem C6_restore_best_effort (g : List Material) (scene : Scene)
    (idx : Int) (item : PresetItem) (h0 : 0 ≤ idx)
    (h1 : idx < (scene.shader_presets.length : Int))
    (hitem : scene.shader_presets.get? idx.toNat = some item)
    (hrec : ∀ r ∈ json_loads item.values_json, recordOK g r = true) :
    ∃ g' j, apply_shader_preset g scene idx = some (true, g', j) := by
  rcases restoreLoop_allOK scene.frame_current (json_loads item.values_json)
      g [] hrec with ⟨g', j, hloop⟩
  refine ⟨g', j, ?_⟩
  unfold apply_shader_preset
  rw [if_neg (by omega :
    ¬ (idx < 0 ∨ (scene.shader_presets.length : Int) ≤ idx))]
  rw [hitem]
  dsimp only
  rw [hloop]

/-- Witness for C6's amended theorem: a three-record preset — an
unresolvable owner (skipped), a resolvable node-socket record, and a
fallback record the owner rejects (skipped) — restores with result
`true`. -/
theorem C6_witness :
    ∃ g' j, apply_shader_preset
        [Material.mk ("M")
          (some (NodeTree.mk none [(("s"), Value.num 1)] [] [])) [] []]
        (Scene.mk 0 [] none ("")
          [PresetItem.mk ("p")
            (json_dumps
              [PRecord.mk ("ghost") ("a") (Value.num 0),
               PRecord.mk ("M") ("node_tree.s.default_value") (Value.num 2),
               PRecord.mk ("M") ("zz") (Value.num 3)])] 0) 0 =
      some (true, g', j) :=
  C6_restore_best_effort
    [Material.mk ("M") (some (NodeTree.mk none [(("s"), Value.num 1)] [] []))
      [] []]
    (Scene.mk 0 [] none ("")
      [PresetItem.mk ("p")
        (json_dumps
          [PRecord.mk ("ghost") ("a") (Value.num 0),
           PRecord.mk ("M") ("node_tree.s.default_value") (Value.num 2),
           PRecord.mk ("M") ("zz") (Value.num 3)])] 0) 0
    (PresetItem.mk ("p")
      (json_dumps
        [PRecord.mk ("ghost") ("a") (Value.num 0),
         PRecord.mk ("M") ("node_tree.s.default_value") (Value.num 2),
         PRecord.mk ("M") ("zz") (Value.num 3)]))
    (by decide) (by decide) (by decide) (by decide)

end ColorKeys
